import Mathlib

/-!
Formal model of the `query-authentication` crate (secure-secrets), covering
the pretty JSON serializer (`src/pretty`), the envelope builder
(`src/transaction.rs`) and the permit validation flow (`src/permit.rs`).

Bytes are modelled as `List Nat`, each entry one byte value.  External
collaborators (the SHA-256, Keccak-256 and RIPEMD-160 digests, the host
`secp256k1_verify` primitive and cosmwasm's compact `to_binary` encoder)
are passed in as function parameters, mirroring the `&dyn Api` interface
and the external hash crates the source calls into.
-/

/-- Digit-emission loop of the `serialize_unsigned!` macro
(`src/pretty/mod.rs` lines 95-115): writes the base-10 digits of `v` into a
buffer of size `fuel` from the end, breaking once the remaining value is
zero, and returns the used suffix (most significant digit first) in front
of `acc`.  The `fuel`/index bookkeeping of the Rust loop becomes a fuel
parameter; callers pass the same per-type buffer sizes as the source. -/
def digitsLoop : Nat → Nat → List Nat → List Nat
  | 0, _, acc => acc
  | fuel + 1, v, acc =>
    let acc2 := (v % 10 + 48) :: acc
    if v / 10 = 0 then acc2 else digitsLoop fuel (v / 10) acc2

/-- Reference decimal representation: base-10 ASCII digit bytes of `n`,
most significant first, with no leading zeros (`[48]` for zero). -/
def specDigits (n : Nat) : List Nat :=
  if h : n < 10 then [n + 48] else specDigits (n / 10) ++ [n % 10 + 48]
decreasing_by omega

/-- `serialize_unsigned!(self, N, v)` from `src/pretty/mod.rs`. -/
def serialize_unsigned (N v : Nat) : List Nat :=
  digitsLoop N v []

/-- `serialize_signed!(self, N, v, ixx, uxx)` from `src/pretty/mod.rs`
lines 119-151: the minimum value is special-cased (negating it would
overflow), other negatives are negated, then the digits are emitted as in
the unsigned macro and a leading minus sign is placed for negatives. -/
def serialize_signed (N : Nat) (minI maxI v : Int) : List Nat :=
  let sv : Bool × Nat :=
    if v = minI then (true, maxI.toNat + 1)
    else if v < 0 then (true, (-v).toNat)
    else (false, v.toNat)
  let ds := digitsLoop N sv.2 []
  if sv.1 then 45 :: ds else ds

/-- Reference signed decimal representation: a leading minus byte exactly
for negatives, followed by the digits of the absolute value. -/
def intAscii (v : Int) : List Nat :=
  if v < 0 then 45 :: specDigits v.natAbs else specDigits v.natAbs

/-- The integer widths the serializer supports
(`serialize_i8` .. `serialize_u128` in `src/pretty/mod.rs`). -/
inductive IntW where
  | i8 | i16 | i32 | i64 | i128
  | u8 | u16 | u32 | u64 | u128
  deriving DecidableEq

/-- Smallest value of each width. -/
def intWMin : IntW → Int
  | .i8 => -128
  | .i16 => -32768
  | .i32 => -2147483648
  | .i64 => -9223372036854775808
  | .i128 => -170141183460469231731687303715884105728
  | _ => 0

/-- Largest value of each width. -/
def intWMax : IntW → Int
  | .i8 => 127
  | .i16 => 32767
  | .i32 => 2147483647
  | .i64 => 9223372036854775807
  | .i128 => 170141183460469231731687303715884105727
  | .u8 => 255
  | .u16 => 65535
  | .u32 => 4294967295
  | .u64 => 18446744073709551615
  | .u128 => 340282366920938463463374607431768211455

/-- The two 128-bit widths, which the serializer renders quoted. -/
def IntW.wide : IntW → Bool
  | .i128 => true
  | .u128 => true
  | _ => false

/-- Byte output of the integer `serialize_*` methods
(`src/pretty/mod.rs` lines 189-245), with the buffer sizes the source
passes per type; `i128`/`u128` are wrapped in double quote bytes. -/
def intBytes : IntW → Int → List Nat
  | .i8, v => serialize_signed 4 (-128) 127 v
  | .i16, v => serialize_signed 6 (-32768) 32767 v
  | .i32, v => serialize_signed 11 (-2147483648) 2147483647 v
  | .i64, v => serialize_signed 20 (-9223372036854775808) 9223372036854775807 v
  | .i128, v =>
    [34] ++ serialize_signed 40 (-170141183460469231731687303715884105728)
      170141183460469231731687303715884105727 v ++ [34]
  | .u8, v => serialize_unsigned 3 v.toNat
  | .u16, v => serialize_unsigned 5 v.toNat
  | .u32, v => serialize_unsigned 10 v.toNat
  | .u64, v => serialize_unsigned 20 v.toNat
  | .u128, v => [34] ++ serialize_unsigned 39 v.toNat ++ [34]

/-- `hex_4bit` from `src/pretty/mod.rs` lines 155-162: upper-case hex
digit byte for a value in 0..16. -/
def hex_4bit (c : Nat) : Nat :=
  if c ≤ 9 then 48 + c else 65 + (c - 10)

/-- Spec-side upper-case hexadecimal digit (0-9 then A-F). -/
def specUpperHexDigit (n : Nat) : Nat :=
  if n < 10 then 48 + n else 55 + n

/-- Standard UTF-8 encoding of a unicode scalar value, modelling Rust's
`char::encode_utf8` (and `c as u8` for one-byte characters). -/
def utf8Bytes (c : Char) : List Nat :=
  let v := c.toNat
  if v < 128 then [v]
  else if v < 2048 then [192 + v / 64, 128 + v % 64]
  else if v < 65536 then [224 + v / 4096, 128 + v / 64 % 64, 128 + v % 64]
  else [240 + v / 262144, 128 + v / 4096 % 64, 128 + v / 64 % 64, 128 + v % 64]

/-- UTF-8 bytes of a whole string (Rust `str::as_bytes`). -/
def strUtf8 (s : String) : List Nat :=
  (s.data.map utf8Bytes).flatten

/-- A byte list is valid UTF-8: it is the UTF-8 encoding of some sequence
of unicode scalar values.  This is the safety precondition of
`String::from_utf8_unchecked` in `to_string_pretty`. -/
def IsUtf8 (l : List Nat) : Prop :=
  ∃ cs : List Char, l = (cs.map utf8Bytes).flatten

/-- Per-character escaping of `Serializer::serialize_str`
(`src/pretty/mod.rs` lines 259-326), match arms in source order: backslash
and quote, the five named control escapes, the remaining control range as
six-byte upper-case hex escapes (the source computes `hex(c as u8)`, hence
the mod 256), then raw bytes (`c as u8` when `len_utf8() == 1`, otherwise
`encode_utf8`). -/
def escapeChar (c : Char) : List Nat :=
  if c = '\\' then [92, 92]
  else if c = '"' then [92, 34]
  else if c.toNat = 8 then [92, 98]
  else if c.toNat = 9 then [92, 116]
  else if c.toNat = 10 then [92, 110]
  else if c.toNat = 12 then [92, 102]
  else if c.toNat = 13 then [92, 114]
  else if c.toNat ≤ 31 then
    [92, 117, 48, 48, hex_4bit (c.toNat % 256 / 16), hex_4bit (c.toNat % 256 % 16)]
  else if c.toNat < 128 then [c.toNat % 256]
  else utf8Bytes c

/-- Escape table as the specification words it: the fixed two-character
escapes, all other control characters U+0000 - U+001F as six-character
upper-case `u00XX` escapes, everything else as raw UTF-8, unescaped. -/
def specEscape (c : Char) : List Nat :=
  if c = '\\' then [92, 92]
  else if c = '"' then [92, 34]
  else if c.toNat = 8 then [92, 98]
  else if c.toNat = 9 then [92, 116]
  else if c.toNat = 10 then [92, 110]
  else if c.toNat = 12 then [92, 102]
  else if c.toNat = 13 then [92, 114]
  else if c.toNat ≤ 31 then
    [92, 117, 48, 48, specUpperHexDigit (c.toNat / 16), specUpperHexDigit (c.toNat % 16)]
  else utf8Bytes c

/-- `Serializer::serialize_str`: an opening quote byte, each character
escaped in order, a closing quote byte. -/
def serialize_str (s : String) : List Nat :=
  34 :: (s.data.map escapeChar).flatten ++ [34]

/-- The serde `Error` enum of `src/pretty/mod.rs` lines 23-31; it has
exactly the two kinds `BufferFull` and `Custom`. -/
inductive SerError where
  | bufferFull
  | custom (msg : String)
  deriving DecidableEq

/-- Display string of `Error` (`src/pretty/mod.rs` lines 55-62). -/
def serErrorMsg : SerError → String
  | .bufferFull => "Buffer is full"
  | .custom msg => msg

/-- How a serializer run can fail: by returning a value of the `Error`
enum, or by aborting through an `unreachable!()` panic (which in Rust is
not a returned value at all). -/
inductive RunErr where
  | ser (e : SerError)
  | panicked
  deriving DecidableEq

/-- `Serializer::indent` (`src/pretty/mod.rs` lines 85-90): the indent
byte slice repeated `current_indent` times. -/
def indentRep (ind : List Nat) : Nat → List Nat
  | 0 => []
  | d + 1 => ind ++ indentRep ind d

mutual
/-- Serde data-model values as this crate's types present them to the
serializer: unit/absent options (`null`), booleans, sized integers,
strings, sequences and structs, plus the three shapes whose serializer
methods are `unreachable!()` (floats, raw byte scalars, tuple structs). -/
inductive Json where
  | null
  | bool (b : Bool)
  | int (w : IntW) (v : Int)
  | str (s : String)
  | float
  | bytes
  | tupleStruct
  | arr (xs : JsonList)
  | obj (fs : JsonFields)
inductive JsonList where
  | nil
  | cons (hd : Json) (tl : JsonList)
inductive JsonFields where
  | fnil
  | fcons (key : String) (val : Json) (tl : JsonFields)
end

/-- Whether the element list is empty (in the source this is the state of
the `first` flag when `end` runs). -/
def JsonList.isNil : JsonList → Bool
  | .nil => true
  | _ => false

/-- Whether the field list is empty. -/
def JsonFields.isNil : JsonFields → Bool
  | .fnil => true
  | _ => false

/-- Conversion from ordinary lists. -/
def JsonList.ofList : List Json → JsonList
  | [] => .nil
  | x :: xs => .cons x (JsonList.ofList xs)

mutual
/-- Byte output of serializing one value at nesting depth `d`
(`current_indent` in the source): `serialize_bool`, the integer methods,
`serialize_str`, `serialize_none`/`serialize_unit` (the `null` literal),
`serialize_seq` + `SerializeSeq` (`src/pretty/seq.rs`) and
`serialize_struct` + `SerializeStruct` (`src/pretty/struct_.rs`).
Sequences and structs increment `current_indent`, emit the open bracket,
their items, a closing newline + indent when non-empty (the source guards
this with the `first` flag), and the close bracket.  Floats, raw byte
scalars and tuple structs run `unreachable!()`. -/
def serializeValue (ind : List Nat) (d : Nat) : Json → Except RunErr (List Nat)
  | .null => .ok [110, 117, 108, 108]
  | .bool b => .ok (if b then [116, 114, 117, 101] else [102, 97, 108, 115, 101])
  | .int w v => .ok (intBytes w v)
  | .str s => .ok (serialize_str s)
  | .float => .error .panicked
  | .bytes => .error .panicked
  | .tupleStruct => .error .panicked
  | .arr xs =>
    match serializeElems ind d true xs with
    | .error e => .error e
    | .ok body =>
      .ok ([91] ++ body ++ (if xs.isNil then [] else [10] ++ indentRep ind d) ++ [93])
  | .obj fs =>
    match serializeFields ind d true fs with
    | .error e => .error e
    | .ok body =>
      .ok ([123] ++ body ++ (if fs.isNil then [] else [10] ++ indentRep ind d) ++ [125])

/-- `SerializeSeq::serialize_element` iterated: separator comma when not
first, newline, indent at the incremented depth, then the element. -/
def serializeElems (ind : List Nat) (d : Nat) (first : Bool) :
    JsonList → Except RunErr (List Nat)
  | .nil => .ok []
  | .cons x tl =>
    match serializeValue ind (d + 1) x with
    | .error e => .error e
    | .ok vb =>
      match serializeElems ind d false tl with
      | .error e => .error e
      | .ok rest =>
        .ok ((if first then [] else [44]) ++ [10] ++ indentRep ind (d + 1) ++ vb ++ rest)

/-- `SerializeStruct::serialize_field` iterated: separator comma when not
first, newline, indent, the quoted raw key bytes, a colon and space, then
the field value. -/
def serializeFields (ind : List Nat) (d : Nat) (first : Bool) :
    JsonFields → Except RunErr (List Nat)
  | .fnil => .ok []
  | .fcons k v tl =>
    match serializeValue ind (d + 1) v with
    | .error e => .error e
    | .ok vb =>
      match serializeFields ind d false tl with
      | .error e => .error e
      | .ok rest =>
        .ok ((if first then [] else [44]) ++ [10] ++ indentRep ind (d + 1) ++
          [34] ++ strUtf8 k ++ [34, 58, 32] ++ vb ++ rest)
end

/-- `SerializeStruct::serialize_field` (`src/pretty/struct_.rs` lines
22-41) for a single field, as the bytes it appends. -/
def serialize_field (ind : List Nat) (d : Nat) (first : Bool) (k : String) (v : Json) :
    Except RunErr (List Nat) :=
  match serializeValue ind (d + 1) v with
  | .error e => .error e
  | .ok vb =>
    .ok ((if first then [] else [44]) ++ [10] ++ indentRep ind (d + 1) ++
      [34] ++ strUtf8 k ++ [34, 58, 32] ++ vb)

/-- `to_vec_pretty` (`src/pretty/mod.rs` lines 476-483): serialize the
value starting with `current_indent = 0` and return the buffer. -/
def to_vec_pretty (v : Json) (ind : List Nat) : Except RunErr (List Nat) :=
  serializeValue ind 0 v

/-- `to_string_pretty` (`src/pretty/mod.rs` lines 466-473): the same
buffer, which the source wraps with `String::from_utf8_unchecked`; the
model keeps the raw bytes that unchecked `String` holds. -/
def to_string_pretty (v : Json) (ind : List Nat) : Except RunErr (List Nat) :=
  to_vec_pretty v ind

/-- `PubKey` (`src/transaction.rs` lines 15-31). -/
structure PubKey where
  type : String
  value : List Nat
  deriving DecidableEq

/-- `PubKey::new`: fixed type tag plus the key bytes. -/
def PubKey.new (pubkey : List Nat) : PubKey :=
  { type := "tendermint/PubKeySecp256k1", value := pubkey }

/-- `PermitSignature` (`src/transaction.rs` lines 8-13). -/
structure PermitSignature where
  pub_key : PubKey
  signature : List Nat
  deriving DecidableEq

/-- `PubKeyValue` (`src/transaction.rs` line 33), the verified-identity
wrapper returned by validation. -/
structure PubKeyValue where
  value : List Nat
  deriving DecidableEq

/-- `PubKeyValue::as_canonical` (`src/transaction.rs` lines 36-40):
RIPEMD-160 of SHA-256 of the public key bytes, with the two digests as
external-collaborator parameters. -/
def PubKeyValue.as_canonical (ripemd160 sha256 : List Nat → List Nat)
    (pk : PubKeyValue) : List Nat :=
  ripemd160 (sha256 pk.value)

/-- `Coin` (`src/transaction.rs` lines 112-118); `Uint128` amounts are
modelled as `Nat`. -/
structure Coin where
  amount : Nat
  denom : String
  deriving DecidableEq

/-- `Coin::default` (`src/transaction.rs` lines 120-127). -/
def Coin.default : Coin :=
  { amount := 0, denom := "uscrt" }

/-- `Fee` (`src/transaction.rs` lines 95-101). -/
structure Fee where
  amount : List Coin
  gas : Nat
  deriving DecidableEq

/-- `Fee::default` (`src/transaction.rs` lines 103-110). -/
def Fee.default : Fee :=
  { amount := [Coin.default], gas := 1 }

/-- `TxMsg` (`src/transaction.rs` lines 47-53); the payload is a
serializable value, modelled as `Json`. -/
structure TxMsg where
  type : String
  value : Json

/-- `TxMsg::new` (`src/transaction.rs` lines 55-62). -/
def TxMsg.new (params : Json) (msg_type : Option String) : TxMsg :=
  { type := msg_type.getD "signature_proof", value := params }

/-- `SignedTx` (`src/transaction.rs` lines 64-80), fields in the source's
(alphabetically sorted) declaration order. -/
structure SignedTx where
  account_number : Nat
  chain_id : String
  fee : Fee
  memo : String
  msgs : List TxMsg
  sequence : Nat

/-- `SignedTx::from_permit` is below, after `Permit`. -/
structure Permit where
  params : Json
  signature : PermitSignature
  account_number : Option Nat
  chain_id : Option String
  sequence : Option Nat
  memo : Option String

/-- `SignedTx::from_permit` (`src/transaction.rs` lines 82-93). -/
def SignedTx.from_permit (permit : Permit) (msg_type : Option String) : SignedTx :=
  { account_number := permit.account_number.getD 0
    chain_id := permit.chain_id.getD "secret-4"
    fee := Fee.default
    memo := permit.memo.getD ""
    msgs := [TxMsg.new permit.params msg_type]
    sequence := permit.sequence.getD 0 }

/-- `Permit::create_signed_tx` (`src/permit.rs` lines 30-32). -/
def Permit.create_signed_tx (p : Permit) (msg_type : Option String) : SignedTx :=
  SignedTx.from_permit p msg_type

/-- Serde view of a `Uint128`: cosmwasm serializes it as its decimal
string. -/
def uint128Json (n : Nat) : Json :=
  .str (Nat.repr n)

/-- Serde view of `Coin` (derive order: amount, denom). -/
def Coin.toJson (c : Coin) : Json :=
  .obj (.fcons "amount" (uint128Json c.amount) (.fcons "denom" (.str c.denom) .fnil))

/-- Serde view of `Fee` (derive order: amount, gas). -/
def Fee.toJson (f : Fee) : Json :=
  .obj (.fcons "amount" (.arr (JsonList.ofList (f.amount.map Coin.toJson)))
    (.fcons "gas" (uint128Json f.gas) .fnil))

/-- Serde view of `TxMsg` (derive order: type, value). -/
def TxMsg.toJson (m : TxMsg) : Json :=
  .obj (.fcons "type" (.str m.type) (.fcons "value" m.value .fnil))

/-- Serde view of `SignedTx` in the source's field order: account_number,
chain_id, fee, memo, msgs, sequence. -/
def SignedTx.toJson (tx : SignedTx) : Json :=
  .obj (.fcons "account_number" (uint128Json tx.account_number)
    (.fcons "chain_id" (.str tx.chain_id)
      (.fcons "fee" tx.fee.toJson
        (.fcons "memo" (.str tx.memo)
          (.fcons "msgs" (.arr (JsonList.ofList (tx.msgs.map TxMsg.toJson)))
            (.fcons "sequence" (uint128Json tx.sequence) .fnil))))))

/-- `StdError` as the validation flow uses it: `generic_err` and
`serialize_err` messages. -/
inductive StdError where
  | genericErr (msg : String)
  | serializeErr (msg : String)
  deriving DecidableEq

/-- How validation can fail: a returned `StdError`, or a Rust panic
raised inside the pretty serializer. -/
inductive VErr where
  | std (e : StdError)
  | panicked
  deriving DecidableEq

/-- The four-space indent constant of `to_binary_pretty`
(`src/permit.rs` line 91). -/
def INDENT4 : List Nat := [32, 32, 32, 32]

/-- The Ethereum personal-message framing bytes
`b"\x19Ethereum Signed Message:\n"` (`src/permit.rs` line 62). -/
def ethSignTag : List Nat :=
  25 :: ("Ethereum Signed Message:".data.map Char.toNat) ++ [10]

/-- `to_binary_pretty` (`src/permit.rs` lines 87-95): pretty-serialize
with the four-space indent, mapping a returned serializer error to
`StdError::serialize_err`; a panic stays a panic. -/
def to_binary_pretty (v : Json) : Except VErr (List Nat) :=
  match to_vec_pretty v INDENT4 with
  | .ok bs => .ok bs
  | .error (.ser e) => .error (.std (.serializeErr (serErrorMsg e)))
  | .error .panicked => .error .panicked

/-- `Permit::validate_signed_tx` (`src/permit.rs` lines 39-84).
`toBin` is cosmwasm's compact `to_binary` (external), `sha256` and
`keccak256` the external digest crates, `secpVerify` the host's
`api.secp256k1_verify`.  Scheme 1: SHA-256 over the compact encoding;
only an `Ok(true)` from the primitive returns early (the `if let
Ok(verified)` pattern), anything else falls through.  Scheme 2: the
Ethereum personal-message framing over the pretty encoding, hashed with
Keccak-256; here a primitive error is mapped through
`StdError::generic_err` and propagated with `?`. -/
def Permit.validate_signed_tx
    (sha256 keccak256 : List Nat → List Nat)
    (toBin : SignedTx → Except StdError (List Nat))
    (secpVerify : List Nat → List Nat → List Nat → Except String Bool)
    (signature : PermitSignature) (signed_tx : SignedTx) :
    Except VErr PubKeyValue :=
  let pubkey := signature.pub_key.value
  match toBin signed_tx with
  | .error e => .error (.std e)
  | .ok signed_bytes =>
    match secpVerify (sha256 signed_bytes) signature.signature pubkey with
    | .ok true => .ok ⟨pubkey⟩
    | _ =>
      match to_binary_pretty signed_tx.toJson with
      | .error e => .error e
      | .ok pretty =>
        let msg := ethSignTag ++ specDigits pretty.length ++ pretty
        match secpVerify (keccak256 msg) signature.signature pubkey with
        | .error e => .error (.std (.genericErr e))
        | .ok true => .ok ⟨pubkey⟩
        | .ok false => .error (.std (.genericErr "Signature verification failed"))

/-- `Permit::validate` (`src/permit.rs` lines 35-37). -/
def Permit.validate
    (sha256 keccak256 : List Nat → List Nat)
    (toBin : SignedTx → Except StdError (List Nat))
    (secpVerify : List Nat → List Nat → List Nat → Except String Bool)
    (p : Permit) (msg_type : Option String) : Except VErr PubKeyValue :=
  Permit.validate_signed_tx sha256 keccak256 toBin secpVerify p.signature
    (p.create_signed_tx msg_type)

/-- Concrete signature used by the witnesses. -/
def sigW : PermitSignature :=
  { pub_key := PubKey.new [2, 3], signature := [7, 7] }

/-- Concrete permit used by the witnesses. -/
def permitW : Permit :=
  { params := Json.null, signature := sigW
    account_number := none, chain_id := none, sequence := none, memo := none }

/-- Envelope of the witness permit. -/
def txW : SignedTx :=
  SignedTx.from_permit permitW none

/-- Stub SHA-256 for witnesses. -/
def shaW : List Nat → List Nat := fun _ => List.replicate 32 0

/-- Stub Keccak-256 for witnesses. -/
def keccakW : List Nat → List Nat := fun _ => List.replicate 32 1

/-- Stub compact encoder for witnesses. -/
def toBinW : SignedTx → Except StdError (List Nat) := fun _ => .ok [9]

/-- Verification primitive that always reports an error. -/
def apiErrW : List Nat → List Nat → List Nat → Except String Bool :=
  fun _ _ _ => .error "boom"

/-- Verification primitive that always reports verified. -/
def apiOkW : List Nat → List Nat → List Nat → Except String Bool :=
  fun _ _ _ => .ok true

/-- Verification primitive that always reports not verified. -/
def apiFalseW : List Nat → List Nat → List Nat → Except String Bool :=
  fun _ _ _ => .ok false

/-- Pretty bytes of the witness envelope. -/
def prettyW : List Nat :=
  match to_vec_pretty txW.toJson INDENT4 with
  | .ok l => l
  | .error _ => []

theorem specDigits_ne_nil (n : Nat) : specDigits n ≠ [] := by
  rw [specDigits]
  split <;> simp

theorem digitsLoop_eq (fuel : Nat) :
    ∀ v acc, v < 10 ^ fuel → 0 < fuel →
      digitsLoop fuel v acc = specDigits v ++ acc := by
  induction fuel with
  | zero => omega
  | succ f ih =>
    intro v acc hv _
    rw [digitsLoop]
    by_cases h10 : v / 10 = 0
    · have hvlt : v < 10 := by omega
      rw [if_pos h10, specDigits, dif_pos hvlt]
      have : v % 10 = v := Nat.mod_eq_of_lt hvlt
      simp [this]
    · have hvge : 10 ≤ v := by omega
      rw [if_neg h10]
      have hdiv : v / 10 < 10 ^ f := by
        have h1 : v < 10 ^ f * 10 := by
          have : 10 ^ (f + 1) = 10 ^ f * 10 := by ring
          omega
        exact Nat.div_lt_of_lt_mul (by omega)
      have hf : 0 < f := by
        by_contra hf0
        have : f = 0 := by omega
        subst this
        simp at hdiv
        omega
      rw [ih (v / 10) ((v % 10 + 48) :: acc) hdiv hf]
      conv_rhs => rw [specDigits]
      rw [dif_neg (by omega : ¬ v < 10)]
      simp

theorem serialize_unsigned_eq (N v : Nat) (h : v < 10 ^ N) (hN : 0 < N) :
    serialize_unsigned N v = specDigits v := by
  rw [serialize_unsigned, digitsLoop_eq N v [] h hN, List.append_nil]

theorem serialize_signed_eq (N : Nat) (minI maxI v : Int)
    (h1 : minI ≤ v) (h2 : v ≤ maxI) (hneg : minI < 0)
    (hmm : maxI.toNat + 1 = minI.natAbs)
    (hNmin : minI.natAbs < 10 ^ N) (hN : 0 < N) :
    serialize_signed N minI maxI v = intAscii v := by
  have hds : ∀ m : Nat, m < 10 ^ N → digitsLoop N m [] = specDigits m := by
    intro m hm
    rw [digitsLoop_eq N m [] hm hN, List.append_nil]
  by_cases hv : v = minI
  · subst hv
    have hv0 : v < 0 := hneg
    have habs : maxI.toNat + 1 = v.natAbs := hmm
    simp only [serialize_signed, intAscii, if_pos rfl, if_pos hv0, habs]
    simp
    rw [hds v.natAbs hNmin]
  · by_cases hv0 : v < 0
    · have habs : (-v).toNat = v.natAbs := by omega
      have hlt : v.natAbs < 10 ^ N := by omega
      simp only [serialize_signed, intAscii, if_neg hv, if_pos hv0, habs]
      simp
      rw [hds v.natAbs hlt]
    · have habs : v.toNat = v.natAbs := by omega
      have hlt : v.natAbs < 10 ^ N := by omega
      simp only [serialize_signed, intAscii, if_neg hv, if_neg hv0, habs]
      simp
      rw [hds v.natAbs hlt]

theorem specDigits_head (n : Nat) :
    ∃ d, (specDigits n).head? = some d ∧ 48 ≤ d ∧ d ≤ 57 ∧ (d = 48 → n = 0) := by
  induction n using Nat.strong_induction_on with
  | _ n ih =>
    rw [specDigits]
    by_cases h : n < 10
    · rw [dif_pos h]
      exact ⟨n + 48, rfl, by omega, by omega, by omega⟩
    · rw [dif_neg h]
      have hlt : n / 10 < n := Nat.div_lt_self (by omega) (by omega)
      obtain ⟨d, hd, h48, h57, hz⟩ := ih (n / 10) hlt
      refine ⟨d, ?_, h48, h57, ?_⟩
      · cases hcase : specDigits (n / 10) with
        | nil => exact absurd hcase (specDigits_ne_nil _)
        | cons a l => rw [hcase] at hd; simpa [hcase] using hd
      · intro hd48
        have : n / 10 = 0 := hz hd48
        omega

theorem specDigits_foldl (n : Nat) :
    ∀ a, List.foldl (fun a d => 10 * a + (d - 48)) a (specDigits n) =
      a * 10 ^ (specDigits n).length + n := by
  induction n using Nat.strong_induction_on with
  | _ n ih =>
    intro a
    rw [specDigits]
    by_cases h : n < 10
    · rw [dif_pos h]
      simp
      omega
    · rw [dif_neg h]
      have hlt : n / 10 < n := Nat.div_lt_self (by omega) (by omega)
      rw [List.foldl_append, ih (n / 10) hlt a]
      simp only [List.length_append, List.length_cons, List.length_nil,
        List.foldl_cons, List.foldl_nil]
      rw [pow_succ, ← mul_assoc]
      have := Nat.div_add_mod n 10
      generalize a * 10 ^ (specDigits (n / 10)).length = Q
      omega

theorem isUtf8_nil : IsUtf8 [] :=
  ⟨[], rfl⟩

theorem isUtf8_append {a b : List Nat} (ha : IsUtf8 a) (hb : IsUtf8 b) :
    IsUtf8 (a ++ b) := by
  obtain ⟨ca, rfl⟩ := ha
  obtain ⟨cb, rfl⟩ := hb
  exact ⟨ca ++ cb, by simp⟩

theorem isUtf8_char (c : Char) : IsUtf8 (utf8Bytes c) :=
  ⟨[c], by simp⟩

theorem charOfNat_toNat_ascii : ∀ b, b < 128 → (Char.ofNat b).toNat = b := by
  decide

theorem isUtf8_ascii : ∀ l : List Nat, (∀ b ∈ l, b < 128) → IsUtf8 l := by
  intro l
  induction l with
  | nil => intro _; exact isUtf8_nil
  | cons b t ih =>
    intro h
    have hb : b < 128 := h b (by simp)
    have h1 : IsUtf8 [b] := by
      refine ⟨[Char.ofNat b], ?_⟩
      simp [utf8Bytes, charOfNat_toNat_ascii b hb, hb]
    have h2 : IsUtf8 t := ih (fun x hx => h x (by simp [hx]))
    have := isUtf8_append h1 h2
    simpa using this

theorem isUtf8_str (s : String) : IsUtf8 (strUtf8 s) :=
  ⟨s.data, rfl⟩

theorem isUtf8_indentRep {ind : List Nat} (h : IsUtf8 ind) (d : Nat) :
    IsUtf8 (indentRep ind d) := by
  induction d with
  | zero => exact isUtf8_nil
  | succ d ih => exact isUtf8_append h ih

theorem digitsLoop_lt128 (fuel : Nat) :
    ∀ v acc, (∀ b ∈ acc, b < 128) → ∀ b ∈ digitsLoop fuel v acc, b < 128 := by
  induction fuel with
  | zero => intro v acc hacc; exact hacc
  | succ f ih =>
    intro v acc hacc
    rw [digitsLoop]
    have hacc2 : ∀ b ∈ (v % 10 + 48) :: acc, b < 128 := by
      intro b hb
      rcases List.mem_cons.mp hb with h | h
      · omega
      · exact hacc b h
    by_cases h10 : v / 10 = 0
    · rw [if_pos h10]; exact hacc2
    · rw [if_neg h10]; exact ih (v / 10) _ hacc2

theorem intBytes_lt128 (w : IntW) (v : Int) : ∀ b ∈ intBytes w v, b < 128 := by
  have hu : ∀ N m, ∀ b ∈ serialize_unsigned N m, b < 128 := by
    intro N m
    exact digitsLoop_lt128 N m [] (by simp)
  have hs : ∀ N minI maxI u, ∀ b ∈ serialize_signed N minI maxI u, b < 128 := by
    intro N minI maxI u b hb
    rw [serialize_signed] at hb
    set sv : Bool × Nat :=
      if u = minI then (true, maxI.toNat + 1)
      else if u < 0 then (true, (-u).toNat)
      else (false, u.toNat) with hsv
    have hds : ∀ x ∈ digitsLoop N sv.2 [], x < 128 :=
      digitsLoop_lt128 N sv.2 [] (by simp)
    by_cases hfl : sv.1
    · simp only [if_pos hfl] at hb
      rcases List.mem_cons.mp hb with h | h
      · omega
      · exact hds b h
    · simp only [if_neg hfl] at hb
      exact hds b hb
  cases w <;> simp only [intBytes] <;> intro b hb
  · exact hs _ _ _ _ b hb
  · exact hs _ _ _ _ b hb
  · exact hs _ _ _ _ b hb
  · exact hs _ _ _ _ b hb
  · rcases List.mem_append.mp hb with h | h
    · rcases List.mem_append.mp h with h' | h'
      · simp at h'; omega
      · exact hs _ _ _ _ b h'
    · simp at h; omega
  · exact hu _ _ b hb
  · exact hu _ _ b hb
  · exact hu _ _ b hb
  · exact hu _ _ b hb
  · rcases List.mem_append.mp hb with h | h
    · rcases List.mem_append.mp h with h' | h'
      · simp at h'; omega
      · exact hu _ _ b h'
    · simp at h; omega

theorem isUtf8_escapeChar (c : Char) : IsUtf8 (escapeChar c) := by
  rw [escapeChar]
  split_ifs with h1 h2 h3 h4 h5 h6 h7 h8 h9
  · exact isUtf8_ascii _ (by decide)
  · exact isUtf8_ascii _ (by decide)
  · exact isUtf8_ascii _ (by decide)
  · exact isUtf8_ascii _ (by decide)
  · exact isUtf8_ascii _ (by decide)
  · exact isUtf8_ascii _ (by decide)
  · exact isUtf8_ascii _ (by decide)
  · refine isUtf8_ascii _ ?_
    intro b hb
    have h16 : ∀ m, m ≤ 15 → hex_4bit m < 128 := by
      intro m hm
      rw [hex_4bit]
      split <;> omega
    simp only [List.mem_cons, List.not_mem_nil, or_false] at hb
    rcases hb with h | h | h | h | h | h
    · omega
    · omega
    · omega
    · omega
    · subst h
      exact h16 _ (by omega)
    · subst h
      exact h16 _ (by omega)
  · refine isUtf8_ascii _ ?_
    intro b hb
    simp only [List.mem_cons, List.not_mem_nil, or_false] at hb
    omega
  · exact isUtf8_char c

theorem isUtf8_serialize_str (s : String) : IsUtf8 (serialize_str s) := by
  rw [serialize_str]
  have hq : IsUtf8 [34] := isUtf8_ascii _ (by simp)
  have hmid : IsUtf8 (s.data.map escapeChar).flatten := by
    induction s.data with
    | nil => exact isUtf8_nil
    | cons c t ih =>
      simp only [List.map_cons, List.flatten_cons]
      exact isUtf8_append (isUtf8_escapeChar c) ih
  have : IsUtf8 ([34] ++ ((s.data.map escapeChar).flatten ++ [34])) :=
    isUtf8_append hq (isUtf8_append hmid hq)
  simpa using this

theorem isUtf8_sep (first : Bool) : IsUtf8 (if first then ([] : List Nat) else [44]) := by
  cases first
  · exact isUtf8_ascii _ (by decide)
  · exact isUtf8_nil

mutual
theorem utf8_serializeValue (v : Json) : ∀ (ind : List Nat) (d : Nat) (out : List Nat),
    IsUtf8 ind → serializeValue ind d v = .ok out → IsUtf8 out := by
  cases v with
  | null =>
    intro ind d out _ h
    simp only [serializeValue, Except.ok.injEq] at h
    subst h
    exact isUtf8_ascii _ (by decide)
  | bool b =>
    intro ind d out _ h
    simp only [serializeValue, Except.ok.injEq] at h
    subst h
    cases b
    · exact isUtf8_ascii _ (by decide)
    · exact isUtf8_ascii _ (by decide)
  | int w n =>
    intro ind d out _ h
    simp only [serializeValue, Except.ok.injEq] at h
    subst h
    exact isUtf8_ascii _ (intBytes_lt128 w n)
  | str s =>
    intro ind d out _ h
    simp only [serializeValue, Except.ok.injEq] at h
    subst h
    exact isUtf8_serialize_str s
  | float =>
    intro ind d out _ h
    simp [serializeValue] at h
  | bytes =>
    intro ind d out _ h
    simp [serializeValue] at h
  | tupleStruct =>
    intro ind d out _ h
    simp [serializeValue] at h
  | arr xs =>
    intro ind d out hind h
    simp only [serializeValue] at h
    cases hb : serializeElems ind d true xs with
    | error e => rw [hb] at h; simp at h
    | ok body =>
      rw [hb] at h
      simp only [Except.ok.injEq] at h
      subst h
      have h1 : IsUtf8 body := utf8_serializeElems xs ind d true body hind hb
      have h2 : IsUtf8 (if xs.isNil then ([] : List Nat) else [10] ++ indentRep ind d) := by
        cases xs.isNil
        · simp only [Bool.false_eq_true, if_false]
          exact isUtf8_append (isUtf8_ascii [10] (by decide)) (isUtf8_indentRep hind d)
        · exact isUtf8_nil
      exact isUtf8_append (isUtf8_append (isUtf8_append
        (isUtf8_ascii [91] (by decide)) h1) h2) (isUtf8_ascii [93] (by decide))
  | obj fs =>
    intro ind d out hind h
    simp only [serializeValue] at h
    cases hb : serializeFields ind d true fs with
    | error e => rw [hb] at h; simp at h
    | ok body =>
      rw [hb] at h
      simp only [Except.ok.injEq] at h
      subst h
      have h1 : IsUtf8 body := utf8_serializeFields fs ind d true body hind hb
      have h2 : IsUtf8 (if fs.isNil then ([] : List Nat) else [10] ++ indentRep ind d) := by
        cases fs.isNil
        · simp only [Bool.false_eq_true, if_false]
          exact isUtf8_append (isUtf8_ascii [10] (by decide)) (isUtf8_indentRep hind d)
        · exact isUtf8_nil
      exact isUtf8_append (isUtf8_append (isUtf8_append
        (isUtf8_ascii [123] (by decide)) h1) h2) (isUtf8_ascii [125] (by decide))

theorem utf8_serializeElems (xs : JsonList) :
    ∀ (ind : List Nat) (d : Nat) (first : Bool) (out : List Nat),
    IsUtf8 ind → serializeElems ind d first xs = .ok out → IsUtf8 out := by
  cases xs with
  | nil =>
    intro ind d first out _ h
    simp only [serializeElems, Except.ok.injEq] at h
    subst h
    exact isUtf8_nil
  | cons x tl =>
    intro ind d first out hind h
    simp only [serializeElems] at h
    cases hv : serializeValue ind (d + 1) x with
    | error e => rw [hv] at h; simp at h
    | ok vb =>
      rw [hv] at h
      cases hr : serializeElems ind d false tl with
      | error e => rw [hr] at h; simp at h
      | ok rest =>
        rw [hr] at h
        simp only [Except.ok.injEq] at h
        subst h
        have h1 : IsUtf8 vb := utf8_serializeValue x ind (d + 1) vb hind hv
        have h2 : IsUtf8 rest := utf8_serializeElems tl ind d false rest hind hr
        exact isUtf8_append (isUtf8_append (isUtf8_append (isUtf8_append
          (isUtf8_sep first) (isUtf8_ascii [10] (by decide)))
          (isUtf8_indentRep hind (d + 1))) h1) h2

theorem utf8_serializeFields (fs : JsonFields) :
    ∀ (ind : List Nat) (d : Nat) (first : Bool) (out : List Nat),
    IsUtf8 ind → serializeFields ind d first fs = .ok out → IsUtf8 out := by
  cases fs with
  | fnil =>
    intro ind d first out _ h
    simp only [serializeFields, Except.ok.injEq] at h
    subst h
    exact isUtf8_nil
  | fcons k x tl =>
    intro ind d first out hind h
    simp only [serializeFields] at h
    cases hv : serializeValue ind (d + 1) x with
    | error e => rw [hv] at h; simp at h
    | ok vb =>
      rw [hv] at h
      cases hr : serializeFields ind d false tl with
      | error e => rw [hr] at h; simp at h
      | ok rest =>
        rw [hr] at h
        simp only [Except.ok.injEq] at h
        subst h
        have h1 : IsUtf8 vb := utf8_serializeValue x ind (d + 1) vb hind hv
        have h2 : IsUtf8 rest := utf8_serializeFields tl ind d false rest hind hr
        exact isUtf8_append (isUtf8_append (isUtf8_append (isUtf8_append
          (isUtf8_append (isUtf8_append (isUtf8_append
            (isUtf8_sep first) (isUtf8_ascii [10] (by decide)))
            (isUtf8_indentRep hind (d + 1)))
            (isUtf8_ascii [34] (by decide)))
            (isUtf8_str k))
            (isUtf8_ascii [34, 58, 32] (by decide)))
          h1) h2
end

theorem hex_4bit_eq_spec (m : Nat) (h : m ≤ 15) : hex_4bit m = specUpperHexDigit m := by
  rw [hex_4bit, specUpperHexDigit]
  split_ifs <;> omega

theorem escapeChar_eq_specEscape (c : Char) : escapeChar c = specEscape c := by
  rw [escapeChar, specEscape]
  split_ifs with h1 h2 h3 h4 h5 h6 h7 h8 h9
  · rfl
  · rfl
  · rfl
  · rfl
  · rfl
  · rfl
  · rfl
  · have hm : c.toNat % 256 = c.toNat := by omega
    rw [hm, hex_4bit_eq_spec _ (by omega), hex_4bit_eq_spec _ (by omega)]
  · rw [utf8Bytes]
    simp only [if_pos h9]
    congr 1
    omega
  · rfl

/-- C3: building the signing envelope from a permit is total and pure, and
fills every omitted optional field with the documented defaults:
account_number 0, chain_id "secret-4", memo "", sequence 0, the default
fee, and a single message whose type is the override or "signature_proof"
and whose value is the permit's params. -/
theorem from_permit_total_defaults (p : Permit) (mt : Option String) :
    SignedTx.from_permit p mt =
      { account_number := p.account_number.getD 0
        chain_id := p.chain_id.getD "secret-4"
        fee := { amount := [{ amount := 0, denom := "uscrt" }], gas := 1 }
        memo := p.memo.getD ""
        msgs := [{ type := mt.getD "signature_proof", value := p.params }]
        sequence := p.sequence.getD 0 } :=
  rfl

/-- C5: the pretty encoder emits every string double quoted, escaping each
character exactly as the specification's table demands (the fixed
two-character escapes, six-character upper-case hex escapes for the other
control characters, raw UTF-8 for everything else). -/
theorem serialize_str_spec_table (s : String) :
    serialize_str s = [34] ++ (s.data.map specEscape).flatten ++ [34] := by
  rw [serialize_str, show escapeChar = specEscape from funext escapeChar_eq_specEscape]
  rfl

/-- C7: an absent optional renders as the four-byte JSON literal `null`,
and an absent optional struct field is still emitted as its key, the
colon-space separator, and `null` - never omitted. -/
theorem null_never_omitted (ind : List Nat) (d : Nat) (first : Bool) (k : String) :
    serializeValue ind d Json.null = .ok [110, 117, 108, 108] ∧
    serialize_field ind d first k Json.null =
      .ok ((if first then [] else [44]) ++ [10] ++ indentRep ind (d + 1) ++
        [34] ++ strUtf8 k ++ [34, 58, 32] ++ [110, 117, 108, 108]) :=
  ⟨rfl, rfl⟩

/-- C8 counterexample: encoding a floating-point value does not return an
`Unsupported`-kind error - it aborts through `unreachable!()` (modelled as
the `panicked` outcome, distinct from every returned `Error` value). -/
theorem unsupported_is_panic_counterexample :
    to_vec_pretty Json.float INDENT4 = .error .panicked :=
  rfl

/-- C8 (amended): encoding a floating-point number, a raw byte scalar or a
tuple struct aborts with a panic (`unreachable!()`) instead of returning a
typed error, and the serializer's error enum has only the `BufferFull` and
`Custom` kinds - no `Unsupported` kind exists. -/
theorem unsupported_shapes_panic (ind : List Nat) (d : Nat) :
    serializeValue ind d Json.float = .error .panicked ∧
    serializeValue ind d Json.bytes = .error .panicked ∧
    serializeValue ind d Json.tupleStruct = .error .panicked ∧
    (∀ e : SerError, e = .bufferFull ∨ ∃ m, e = .custom m) := by
  refine ⟨rfl, rfl, rfl, ?_⟩
  intro e
  cases e with
  | bufferFull => exact Or.inl rfl
  | custom m => exact Or.inr ⟨m, rfl⟩

/-- C9: the derived canonical address is RIPEMD-160 of SHA-256 of the
public key bytes and, because the RIPEMD-160 primitive always produces a
20-byte digest (its Rust output type is a fixed 20-byte array), it is
exactly 20 bytes long. -/
theorem as_canonical_ripemd_sha (ripemd160 sha256 : List Nat → List Nat)
    (h20 : ∀ b, (ripemd160 b).length = 20) (pk : PubKeyValue) :
    PubKeyValue.as_canonical ripemd160 sha256 pk = ripemd160 (sha256 pk.value) ∧
    (PubKeyValue.as_canonical ripemd160 sha256 pk).length = 20 :=
  ⟨rfl, h20 _⟩

theorem as_canonical_ripemd_sha_witness :
    (∀ b : List Nat, ((fun _ => List.replicate 20 (0 : Nat)) b).length = 20) ∧
    (PubKeyValue.as_canonical (fun _ => List.replicate 20 (0 : Nat))
      (fun _ => []) ⟨[1]⟩).length = 20 :=
  ⟨fun _ => by simp,
   (as_canonical_ripemd_sha (fun _ => List.replicate 20 (0 : Nat)) (fun _ => [])
     (fun _ => by simp) ⟨[1]⟩).2⟩

/-- C10: for every serializable value and every indent byte slice that is
itself valid UTF-8, the byte buffer the pretty serializer produces is
valid UTF-8, so the `String::from_utf8_unchecked` inside
`to_string_pretty` never constructs an invalid `String`. -/
theorem to_string_pretty_utf8 (v : Json) (ind : List Nat) (out : List Nat)
    (hind : IsUtf8 ind) (h : to_string_pretty v ind = .ok out) : IsUtf8 out :=
  utf8_serializeValue v ind 0 out hind h

theorem to_string_pretty_utf8_witness : IsUtf8 [32, 32] ∧ IsUtf8 [34, 97, 34] :=
  ⟨⟨[Char.ofNat 32, Char.ofNat 32], by decide⟩,
   to_string_pretty_utf8 (Json.str "a") [32, 32] [34, 97, 34]
     ⟨[Char.ofNat 32, Char.ofNat 32], by decide⟩ rfl⟩

theorem serialize_unsigned_intAscii (N : Nat) (v : Int) (h0 : 0 ≤ v)
    (h : v.natAbs < 10 ^ N) (hN : 0 < N) :
    serialize_unsigned N v.toNat = intAscii v := by
  rw [serialize_unsigned_eq N v.toNat (by omega) hN, intAscii, if_neg (by omega)]
  congr 1
  omega

/-- C6: every integer of width up to 64 bits is emitted as its exact
base-10 ASCII representation - a leading minus byte exactly when the value
is negative (including each width's minimum value), digit bytes with no
leading zero, denoting the value itself - as a bare JSON number, while the
two 128-bit widths emit the same representation wrapped in double quote
bytes. -/
theorem int_decimal_rendering (w : IntW) (v : Int)
    (h1 : intWMin w ≤ v) (h2 : v ≤ intWMax w) :
    intBytes w v = (if w.wide then [34] ++ intAscii v ++ [34] else intAscii v) ∧
    ((intAscii v).head? = some 45 ↔ v < 0) ∧
    (∀ b, (specDigits v.natAbs).head? = some b →
      48 ≤ b ∧ b ≤ 57 ∧ (b = 48 → v = 0)) ∧
    List.foldl (fun a d => 10 * a + (d - 48)) 0 (specDigits v.natAbs) = v.natAbs := by
  obtain ⟨d, hd1, hd2, hd3, hd4⟩ := specDigits_head v.natAbs
  refine ⟨?_, ?_, ?_, ?_⟩
  · cases w
    case i8 =>
      rw [show intBytes .i8 v = serialize_signed 4 (-128) 127 v from rfl,
        serialize_signed_eq 4 (-128) 127 v h1 h2 (by decide) (by decide) (by decide)
          (by decide)]
      simp [IntW.wide]
    case i16 =>
      rw [show intBytes .i16 v = serialize_signed 6 (-32768) 32767 v from rfl,
        serialize_signed_eq 6 (-32768) 32767 v h1 h2 (by decide) (by decide) (by decide)
          (by decide)]
      simp [IntW.wide]
    case i32 =>
      rw [show intBytes .i32 v = serialize_signed 11 (-2147483648) 2147483647 v from rfl,
        serialize_signed_eq 11 (-2147483648) 2147483647 v h1 h2 (by decide) (by decide)
          (by decide) (by decide)]
      simp [IntW.wide]
    case i64 =>
      rw [show intBytes .i64 v =
          serialize_signed 20 (-9223372036854775808) 9223372036854775807 v from rfl,
        serialize_signed_eq 20 (-9223372036854775808) 9223372036854775807 v h1 h2
          (by decide) (by decide) (by decide) (by decide)]
      simp [IntW.wide]
    case i128 =>
      rw [show intBytes .i128 v =
          [34] ++ serialize_signed 40 (-170141183460469231731687303715884105728)
            170141183460469231731687303715884105727 v ++ [34] from rfl,
        serialize_signed_eq 40 (-170141183460469231731687303715884105728)
          170141183460469231731687303715884105727 v h1 h2
          (by decide) (by decide) (by decide) (by decide)]
      simp [IntW.wide]
    case u8 =>
      have h0 : (0 : Int) ≤ v := h1
      have h2' : v ≤ 255 := h2
      have habs : v.natAbs < 10 ^ 3 := by
        have hp : (10 : Nat) ^ 3 = 1000 := by norm_num
        omega
      rw [show intBytes .u8 v = serialize_unsigned 3 v.toNat from rfl,
        serialize_unsigned_intAscii 3 v h0 habs (by norm_num)]
      simp [IntW.wide]
    case u16 =>
      have h0 : (0 : Int) ≤ v := h1
      have h2' : v ≤ 65535 := h2
      have habs : v.natAbs < 10 ^ 5 := by
        have hp : (10 : Nat) ^ 5 = 100000 := by norm_num
        omega
      rw [show intBytes .u16 v = serialize_unsigned 5 v.toNat from rfl,
        serialize_unsigned_intAscii 5 v h0 habs (by norm_num)]
      simp [IntW.wide]
    case u32 =>
      have h0 : (0 : Int) ≤ v := h1
      have h2' : v ≤ 4294967295 := h2
      have habs : v.natAbs < 10 ^ 10 := by
        have hp : (10 : Nat) ^ 10 = 10000000000 := by norm_num
        omega
      rw [show intBytes .u32 v = serialize_unsigned 10 v.toNat from rfl,
        serialize_unsigned_intAscii 10 v h0 habs (by norm_num)]
      simp [IntW.wide]
    case u64 =>
      have h0 : (0 : Int) ≤ v := h1
      have h2' : v ≤ 18446744073709551615 := h2
      have habs : v.natAbs < 10 ^ 20 := by
        have hp : (10 : Nat) ^ 20 = 100000000000000000000 := by norm_num
        omega
      rw [show intBytes .u64 v = serialize_unsigned 20 v.toNat from rfl,
        serialize_unsigned_intAscii 20 v h0 habs (by norm_num)]
      simp [IntW.wide]
    case u128 =>
      have h0 : (0 : Int) ≤ v := h1
      have h2' : v ≤ 340282366920938463463374607431768211455 := h2
      have habs : v.natAbs < 10 ^ 39 := by
        have hp : (10 : Nat) ^ 39 = 1000000000000000000000000000000000000000 := by
          norm_num
        omega
      rw [show intBytes .u128 v = [34] ++ serialize_unsigned 39 v.toNat ++ [34] from rfl,
        serialize_unsigned_intAscii 39 v h0 habs (by norm_num)]
      simp [IntW.wide]
  · rw [intAscii]
    by_cases hv0 : v < 0
    · simp [hv0]
    · rw [if_neg hv0, hd1]
      simp only [Option.some.injEq]
      constructor
      · intro h45
        omega
      · intro hc
        exact absurd hc hv0
  · intro b hb
    rw [hd1] at hb
    simp only [Option.some.injEq] at hb
    subst hb
    refine ⟨hd2, hd3, fun h48 => ?_⟩
    have := hd4 h48
    omega
  · rw [specDigits_foldl v.natAbs 0]
    simp

theorem int_decimal_rendering_witness :
    intWMin IntW.i8 ≤ -128 ∧ (-128 : Int) ≤ intWMax IntW.i8 ∧
    intBytes IntW.i8 (-128) =
      (if (IntW.i8).wide then [34] ++ intAscii (-128) ++ [34] else intAscii (-128)) :=
  ⟨by decide, by decide, (int_decimal_rendering IntW.i8 (-128) (by decide) (by decide)).1⟩

/-- C1: for every permit and optional message type, `validate` hashes the
compact canonical encoding of the built envelope with SHA-256 and checks
the permit's signature against the declared public key with the secp256k1
primitive; when that check reports verified it returns the declared key
`signature.pub_key.value` wrapped as the verified identity.  The primitive
`secpVerify` is universally quantified and constrained only at the direct
scheme's digest, so the conclusion holds regardless of what the primitive
would answer for the browser-wallet digest: the fallback is never
consulted. -/
theorem validate_direct_scheme
    (sha256 keccak256 : List Nat → List Nat)
    (toBin : SignedTx → Except StdError (List Nat))
    (secpVerify : List Nat → List Nat → List Nat → Except String Bool)
    (p : Permit) (mt : Option String) (bz : List Nat)
    (hbin : toBin (p.create_signed_tx mt) = .ok bz)
    (hver : secpVerify (sha256 bz) p.signature.signature p.signature.pub_key.value
      = .ok true) :
    Permit.validate sha256 keccak256 toBin secpVerify p mt =
      .ok ⟨p.signature.pub_key.value⟩ := by
  simp only [Permit.validate, Permit.validate_signed_tx, hbin, hver]

theorem validate_direct_scheme_witness :
    toBinW (permitW.create_signed_tx none) = .ok [9] ∧
    apiOkW (shaW [9]) permitW.signature.signature permitW.signature.pub_key.value
      = .ok true ∧
    Permit.validate shaW keccakW toBinW apiOkW permitW none =
      .ok ⟨permitW.signature.pub_key.value⟩ :=
  ⟨rfl, rfl, validate_direct_scheme shaW keccakW toBinW apiOkW permitW none [9] rfl rfl⟩

/-- C2: whenever the direct scheme does not report verified, `validate`
builds the Ethereum personal-message framing - the tag bytes, the ASCII
decimal length of the pretty canonical encoding with four-space indent,
then those pretty bytes - hashes it with Keccak-256 and verifies the same
signature bytes and declared public key over that digest, returning the
declared key exactly when the primitive reports verified and failing
otherwise. -/
theorem validate_fallback_scheme
    (sha256 keccak256 : List Nat → List Nat)
    (toBin : SignedTx → Except StdError (List Nat))
    (secpVerify : List Nat → List Nat → List Nat → Except String Bool)
    (p : Permit) (mt : Option String) (bz pretty : List Nat)
    (hbin : toBin (p.create_signed_tx mt) = .ok bz)
    (hdir : secpVerify (sha256 bz) p.signature.signature p.signature.pub_key.value
      ≠ .ok true)
    (hpretty : to_vec_pretty (p.create_signed_tx mt).toJson INDENT4 = .ok pretty) :
    Permit.validate sha256 keccak256 toBin secpVerify p mt =
      match secpVerify (keccak256 (ethSignTag ++ specDigits pretty.length ++ pretty))
          p.signature.signature p.signature.pub_key.value with
      | .ok true => .ok ⟨p.signature.pub_key.value⟩
      | .ok false => .error (.std (.genericErr "Signature verification failed"))
      | .error e => .error (.std (.genericErr e)) := by
  simp only [Permit.validate, Permit.validate_signed_tx, hbin]
  cases hres : secpVerify (sha256 bz) p.signature.signature p.signature.pub_key.value with
  | error s =>
    simp only [to_binary_pretty, hpretty]
    cases hk : secpVerify (keccak256 (ethSignTag ++ specDigits pretty.length ++ pretty))
        p.signature.signature p.signature.pub_key.value with
    | error e => rfl
    | ok b => cases b <;> rfl
  | ok b =>
    cases b with
    | true => exact absurd hres hdir
    | false =>
      simp only [to_binary_pretty, hpretty]
      cases hk : secpVerify (keccak256 (ethSignTag ++ specDigits pretty.length ++ pretty))
          p.signature.signature p.signature.pub_key.value with
      | error e => rfl
      | ok b => cases b <;> rfl

theorem validate_fallback_scheme_witness :
    toBinW (permitW.create_signed_tx none) = .ok [9] ∧
    apiFalseW (shaW [9]) permitW.signature.signature permitW.signature.pub_key.value
      ≠ .ok true ∧
    to_vec_pretty (permitW.create_signed_tx none).toJson INDENT4 = .ok prettyW ∧
    Permit.validate shaW keccakW toBinW apiFalseW permitW none =
      .error (.std (.genericErr "Signature verification failed")) := by
  refine ⟨rfl, by simp [apiFalseW], rfl, ?_⟩
  have h := validate_fallback_scheme shaW keccakW toBinW apiFalseW permitW none [9]
    prettyW rfl (by simp [apiFalseW]) rfl
  rw [h]
  rfl

/-- C4 counterexample: with a verification primitive that reports the
error "boom" for every query, `validate` returns that primitive-level
error as a fatal generic error - refuting the claim that a primitive
error is never propagated as a fatal error under either scheme (the
direct scheme does fall through, but the browser-wallet scheme maps the
error through `StdError::generic_err` and propagates it with `?`). -/
theorem primitive_error_propagates_counterexample :
    Permit.validate shaW keccakW toBinW apiErrW permitW none =
      .error (.std (.genericErr "boom")) :=
  rfl

/-- C4 (amended): a primitive-level error under the direct scheme is
treated as not verified and validation falls through to the browser-wallet
scheme, but under the browser-wallet scheme a primitive-level error is
propagated as a fatal generic error from `validate`. -/
theorem primitive_error_policy
    (sha256 keccak256 : List Nat → List Nat)
    (toBin : SignedTx → Except StdError (List Nat))
    (secpVerify : List Nat → List Nat → List Nat → Except String Bool)
    (p : Permit) (mt : Option String) (bz pretty : List Nat) (e1 : String)
    (hbin : toBin (p.create_signed_tx mt) = .ok bz)
    (hdir : secpVerify (sha256 bz) p.signature.signature p.signature.pub_key.value
      = .error e1)
    (hpretty : to_vec_pretty (p.create_signed_tx mt).toJson INDENT4 = .ok pretty) :
    (Permit.validate sha256 keccak256 toBin secpVerify p mt =
      match secpVerify (keccak256 (ethSignTag ++ specDigits pretty.length ++ pretty))
          p.signature.signature p.signature.pub_key.value with
      | .ok true => .ok ⟨p.signature.pub_key.value⟩
      | .ok false => .error (.std (.genericErr "Signature verification failed"))
      | .error e => .error (.std (.genericErr e))) ∧
    (∀ e2, secpVerify (keccak256 (ethSignTag ++ specDigits pretty.length ++ pretty))
        p.signature.signature p.signature.pub_key.value = .error e2 →
      Permit.validate sha256 keccak256 toBin secpVerify p mt =
        .error (.std (.genericErr e2))) := by
  constructor
  · simp only [Permit.validate, Permit.validate_signed_tx, hbin, hdir,
      to_binary_pretty, hpretty]
    cases hk : secpVerify (keccak256 (ethSignTag ++ specDigits pretty.length ++ pretty))
        p.signature.signature p.signature.pub_key.value with
    | error e => rfl
    | ok b => cases b <;> rfl
  · intro e2 hk
    simp only [Permit.validate, Permit.validate_signed_tx, hbin, hdir,
      to_binary_pretty, hpretty, hk]

theorem primitive_error_policy_witness :
    toBinW (permitW.create_signed_tx none) = .ok [9] ∧
    apiErrW (shaW [9]) permitW.signature.signature permitW.signature.pub_key.value
      = .error "boom" ∧
    to_vec_pretty (permitW.create_signed_tx none).toJson INDENT4 = .ok prettyW ∧
    Permit.validate shaW keccakW toBinW apiErrW permitW none =
      .error (.std (.genericErr "boom")) := by
  refine ⟨rfl, rfl, rfl, ?_⟩
  exact (primitive_error_policy shaW keccakW toBinW apiErrW permitW none [9] prettyW
    "boom" rfl rfl rfl).2 "boom" rfl
